import Mathlib

/-!
Verification of `src/main.py` of Transfer-Aurora-rds-logs-s3: a checkpointed
incremental copier of CloudWatch log events to S3.  The single core procedure
`copy_logs_from_cloudwatch_to_s3` is embedded below as `run`, with the external
collaborators (S3, CloudWatch, gzip, Python's `int()`) modelled explicitly:

* S3 objects are an association list `String × List Nat` (key to byte body);
  `put_object` conses, `get_object` looks up the most recent entry.
* Failures of the external calls are injected through an `Env` record:
  `head_bucket` status, an override for the checkpoint `get_object`, and a
  per-key failure predicate for `put_object` (the code only catches
  `ClientError`, which these model).
* `filter_log_events` is an oracle `String → Int → List Event` in `Env`
  (stream name and `startTime` to the concatenated pages of returned events);
  the code passes `startTime = last_written_time + 1`.
* `gzip.compress`/`gzip.decompress` are modelled by an executable lossless
  byte codec (run-length, proved invertible): the only property of gzip the
  program relies on is losslessness of a deflate-family codec.
* Python's `int(bytes)` is modelled by `pyIntParse`: ASCII whitespace
  stripping, optional sign, digits with single interior underscores.
Event payloads are represented by their UTF-8 byte sequences (`List Nat`),
matching the code's `log_data.encode('utf-8')`.
-/

namespace TransferLogs

/-! ### Model of the gzip codec (lossless byte codec) -/

/-- Run-length grouping of a byte list into (count, value) pairs. -/
def rleGroup : List Nat → List (Nat × Nat)
  | [] => []
  | x :: xs =>
    match rleGroup xs with
    | [] => [(1, x)]
    | (n, y) :: rest => if x = y then (n + 1, y) :: rest else (1, x) :: (n, y) :: rest

/-- Flatten (count, value) pairs into a byte list. -/
def flattenPairs : List (Nat × Nat) → List Nat
  | [] => []
  | (n, v) :: rest => n :: v :: flattenPairs rest

/-- Model of `gzip.compress` on UTF-8 bytes: an executable lossless codec. -/
def gzipCompress (l : List Nat) : List Nat :=
  flattenPairs (rleGroup l)

/-- Parse a flattened pair list back into pairs; fails on odd length. -/
def unflattenPairs : List Nat → Option (List (Nat × Nat))
  | [] => some []
  | [_] => none
  | n :: v :: rest => (unflattenPairs rest).map (fun ps => (n, v) :: ps)

/-- Expand (count, value) pairs back to the byte list. -/
def expandPairs : List (Nat × Nat) → List Nat
  | [] => []
  | (n, v) :: rest => List.replicate n v ++ expandPairs rest

/-- Model of `gzip.decompress`. -/
def gzipDecompress (l : List Nat) : Option (List Nat) :=
  (unflattenPairs l).map expandPairs

theorem expandPairs_rleGroup (l : List Nat) : expandPairs (rleGroup l) = l := by
  induction l with
  | nil => rfl
  | cons x xs ih =>
    cases hg : rleGroup xs with
    | nil =>
      simp only [rleGroup, hg, expandPairs, List.replicate, List.nil_append]
      rw [hg] at ih
      simp [expandPairs] at ih
      simp [ih]
    | cons p rest =>
      obtain ⟨n, y⟩ := p
      rw [hg] at ih
      by_cases hxy : x = y
      · subst hxy
        simp only [rleGroup, hg, if_pos rfl, expandPairs]
        rw [← ih]
        simp [expandPairs, List.replicate_succ]
      · simp only [rleGroup, hg, if_neg hxy, expandPairs]
        rw [← ih]
        simp [expandPairs, List.replicate]

theorem unflattenPairs_flattenPairs (ps : List (Nat × Nat)) :
    unflattenPairs (flattenPairs ps) = some ps := by
  induction ps with
  | nil => rfl
  | cons p rest ih =>
    obtain ⟨n, v⟩ := p
    cases hr : flattenPairs rest with
    | nil =>
      rw [hr] at ih
      simp [flattenPairs, hr, unflattenPairs, ih]
    | cons b bs =>
      rw [hr] at ih
      simp [flattenPairs, hr, unflattenPairs, ih]

/-- The codec round-trips: decompression recovers the compressed payload. -/
theorem gzipDecompress_gzipCompress (l : List Nat) :
    gzipDecompress (gzipCompress l) = some l := by
  simp [gzipDecompress, gzipCompress, unflattenPairs_flattenPairs, expandPairs_rleGroup]

/-! ### Model of Python `int(bytes)` -/

/-- ASCII whitespace bytes stripped by `int()`. -/
def isAsciiWS (b : Nat) : Bool :=
  b = 9 || b = 10 || b = 11 || b = 12 || b = 13 || b = 32

/-- Strip leading and trailing ASCII whitespace. -/
def stripWS (l : List Nat) : List Nat :=
  ((l.dropWhile isAsciiWS).reverse.dropWhile isAsciiWS).reverse

/-- ASCII decimal digit. -/
def isDigit (b : Nat) : Bool :=
  48 ≤ b && b ≤ 57

/-- Digits after the first, allowing single interior underscores (byte 95). -/
def parseDigitsAux (acc : Nat) : List Nat → Option Nat
  | [] => some acc
  | 95 :: b :: rest =>
    if isDigit b then parseDigitsAux (acc * 10 + (b - 48)) rest else none
  | b :: rest =>
    if isDigit b then parseDigitsAux (acc * 10 + (b - 48)) rest else none

/-- A nonempty digit sequence (with interior underscores), as a Nat. -/
def parseUDigits : List Nat → Option Nat
  | [] => none
  | b :: rest => if isDigit b then parseDigitsAux (b - 48) rest else none

/-- Model of Python `int(bytes)`: `some n` on a valid ASCII decimal integer
(optional surrounding whitespace, optional sign), `none` when `int()` would
raise `ValueError`. -/
def pyIntParse (body : List Nat) : Option Int :=
  match stripWS body with
  | 43 :: rest => (parseUDigits rest).map (fun n => (n : Int))
  | 45 :: rest => (parseUDigits rest).map (fun n => -(n : Int))
  | l => (parseUDigits l).map (fun n => (n : Int))

/-- `str(n).encode()`: ASCII decimal bytes of an integer. -/
def encodeDecimal (n : Int) : List Nat :=
  (toString n).toList.map Char.toNat

/-! ### Data model -/

/-- A CloudWatch log event: `timestamp` (epoch ms) and the event text as its
UTF-8 byte sequence (`event['message'].encode('utf-8')`). -/
structure Event where
  timestamp : Int
  message : List Nat
deriving Repr, DecidableEq

/-- A log stream descriptor as returned by `describe_log_streams`:
`logStreamName` and the optional `lastEventTimestamp`. -/
structure LogStream where
  logStreamName : String
  lastEventTimestamp : Option Int
deriving Repr, DecidableEq

/-- The external world: injected outcomes of the S3/CloudWatch calls.
`headBucketStatus = some c` means `head_bucket` raises `ClientError` with
HTTP status `c`; `configGetError = some c` means the checkpoint `get_object`
raises `ClientError` with status `c`; `filterLogEvents name start` is the
concatenation of all pages returned by `filter_log_events` for that stream
and `startTime`; `putFails k` means `put_object` on key `k` raises
`ClientError`. -/
structure Env where
  headBucketStatus : Option Int
  configGetError : Option Int
  filterLogEvents : String → Int → List Event
  putFails : String → Bool

/-- Record of one successful event `put_object`. -/
structure Upload where
  streamName : String
  timestamp : Int
  payload : List Nat
  key : String
  body : List Nat
deriving Repr, DecidableEq

/-- Mutable run state: the S3 association list (newest entry first), the
`copied_file_count` and `last_written_this_run` counters of the code, and the
trace of successful event uploads. -/
structure RunState where
  s3 : List (String × List Nat)
  copiedFileCount : Nat
  lastWrittenThisRun : Int
  uploads : List Upload
deriving Repr, DecidableEq

/-- The errors `copy_logs_from_cloudwatch_to_s3` can terminate with:
the `RuntimeError`s it raises plus the uncaught `ValueError` from `int()`. -/
inductive RunError where
  | bucketNotFound
  | bucketError
  | configReadError
  | valueError
  | uploadError (key : String)
  | configWriteError
deriving Repr, DecidableEq

/-- `get_object` / lookup on the S3 association list. -/
def s3get (s3 : List (String × List Nat)) (k : String) : Option (List Nat) :=
  (s3.find? (fun p => p.1 == k)).map (fun p => p.2)

/-- `config_file_name = f"{log_prefix}/config_file"`. -/
def configKey (logPrefix : String) : String :=
  logPrefix ++ "/config_file"

/-- `object_key = f"{log_prefix}/logs/{log_stream_name}/{event_time}.gz"`. -/
def objectKey (logPrefix streamName : String) (t : Int) : String :=
  logPrefix ++ "/logs/" ++ streamName ++ "/" ++ toString t ++ ".gz"

/-! ### The embedded procedure -/

/-- Outcome of the checkpoint `get_object`: the body when the object is
fetched, or the `ClientError` HTTP status (404 when the key is absent, or the
injected error). -/
def getConfigResult (env : Env) (s3 : List (String × List Nat)) (logPrefix : String) :
    Except Int (List Nat) :=
  match env.configGetError with
  | some code => .error code
  | none =>
    match s3get s3 (configKey logPrefix) with
    | some body => .ok body
    | none => .error 404

/-- Lines 26-36: read the checkpoint.  Returns `(last_written_time, min_size)`
after the first-run override (`404` forces `min_size = 0`); `ClientError`
with status ≠ 404 raises `RuntimeError`; an unparseable body raises the
uncaught `ValueError`. -/
def readCheckpoint (env : Env) (s3 : List (String × List Nat)) (logPrefix : String)
    (minSize : Int) : Except RunError (Int × Int) :=
  match getConfigResult env s3 logPrefix with
  | .ok body =>
    match pyIntParse body with
    | some n => .ok (n, minSize)
    | none => .error .valueError
  | .error code => if code = 404 then .ok (0, 0) else .error .configReadError

/-- Line 49: `[ls for ls in log_streams if ls.get('lastEventTimestamp', 0) >
last_written_time]`. -/
def logsToProcess (streams : List LogStream) (lastWrittenTime : Int) : List LogStream :=
  streams.filter (fun ls => decide (lastWrittenTime < ls.lastEventTimestamp.getD 0))

/-- Lines 64-86: handle one event of the page: skip if `timestamp ≤
last_written_time`; if the UTF-8 size passes `min_size`, compress, put the
object (a `ClientError` raises `RuntimeError`), bump the count and advance
`last_written_this_run`. -/
def stepEvent (env : Env) (logPrefix streamName : String) (minSize lastWrittenTime : Int)
    (st : RunState) (e : Event) : RunState × Option RunError :=
  if e.timestamp ≤ lastWrittenTime then (st, none)
  else if minSize ≤ (e.message.length : Int) then
    if env.putFails (objectKey logPrefix streamName e.timestamp) then
      (st, some (.uploadError (objectKey logPrefix streamName e.timestamp)))
    else
      ({ s3 := (objectKey logPrefix streamName e.timestamp, gzipCompress e.message) :: st.s3,
         copiedFileCount := st.copiedFileCount + 1,
         lastWrittenThisRun :=
           if st.lastWrittenThisRun < e.timestamp then e.timestamp else st.lastWrittenThisRun,
         uploads := st.uploads ++
           [⟨streamName, e.timestamp, e.message,
             objectKey logPrefix streamName e.timestamp, gzipCompress e.message⟩] }, none)
  else (st, none)

/-- The per-stream event loop: process the returned events in order, stopping
at the first raised error. -/
def processEvents (env : Env) (logPrefix streamName : String) (minSize lastWrittenTime : Int) :
    RunState → List Event → RunState × Option RunError
  | st, [] => (st, none)
  | st, e :: rest =>
    match stepEvent env logPrefix streamName minSize lastWrittenTime st e with
    | (st', none) => processEvents env logPrefix streamName minSize lastWrittenTime st' rest
    | (st', some err) => (st', some err)

/-- Lines 53-86: loop over the filtered streams; each stream's events are
requested with `startTime = last_written_time + 1`; an error aborts the loop. -/
def processStreams (env : Env) (logPrefix : String) (minSize lastWrittenTime : Int) :
    RunState → List LogStream → RunState × Option RunError
  | st, [] => (st, none)
  | st, ls :: rest =>
    match processEvents env logPrefix ls.logStreamName minSize lastWrittenTime st
        (env.filterLogEvents ls.logStreamName (lastWrittenTime + 1)) with
    | (st', none) => processStreams env logPrefix minSize lastWrittenTime st' rest
    | (st', some err) => (st', some err)

/-- `copy_logs_from_cloudwatch_to_s3`: validate the bucket, read the
checkpoint, filter and process the streams, then commit the checkpoint when
`last_written_this_run > 0`.  Returns the final state (the S3 side effects
that happened before any raised error persist) and the raised error, if any. -/
def run (env : Env) (streams : List LogStream) (logPrefix : String) (minSize : Int)
    (s3 : List (String × List Nat)) : RunState × Option RunError :=
  let st0 : RunState := ⟨s3, 0, 0, []⟩
  match env.headBucketStatus with
  | some code => (st0, some (if code = 404 then .bucketNotFound else .bucketError))
  | none =>
    match readCheckpoint env s3 logPrefix minSize with
    | .error e => (st0, some e)
    | .ok (lwt, ms) =>
      match processStreams env logPrefix ms lwt st0 (logsToProcess streams lwt) with
      | (st, some err) => (st, some err)
      | (st, none) =>
        if 0 < st.lastWrittenThisRun then
          if env.putFails (configKey logPrefix) then (st, some .configWriteError)
          else ({ st with
                  s3 := (configKey logPrefix, encodeDecimal st.lastWrittenThisRun) :: st.s3 },
                none)
        else (st, none)

/-! ### Invocation surfaces -/

/-- The five inputs the harness passes to the core procedure. -/
structure CoreInputs where
  logGroupName : String
  s3BucketName : String
  awsRegion : String
  logPrefix : String
  minSize : Int
deriving Repr, DecidableEq

/-- A lambda invocation event: three required fields and the two optional
fields read by `event.get('log_prefix', "")` / `event.get('min_size', 0)`. -/
structure LambdaEvent where
  logGroupName : String
  s3BucketName : String
  awsRegion : String
  logPrefix : Option String
  minSize : Option Int
deriving Repr, DecidableEq

/-- A command-line invocation: the three required flags and the two optional
flags (`none` = flag omitted). -/
structure CliArgs where
  logGroupName : String
  s3BucketName : String
  awsRegion : String
  logPrefix : Option String
  minSize : Option Int
deriving Repr, DecidableEq

/-- Lines 117-123: the argument tuple `lambda_handler` builds. -/
def lambdaArgs (ev : LambdaEvent) : CoreInputs :=
  ⟨ev.logGroupName, ev.s3BucketName, ev.awsRegion, ev.logPrefix.getD "", ev.minSize.getD 0⟩

/-- Lines 106-113: `parse_args` with its defaults (`""`, `0`). -/
def parse_args (a : CliArgs) : CoreInputs :=
  ⟨a.logGroupName, a.s3BucketName, a.awsRegion, a.logPrefix.getD "", a.minSize.getD 0⟩

/-- Invoke the core procedure on resolved inputs (the group/bucket/region
select the external world, modelled by `env`, `streams`, `s3`). -/
def invokeCore (env : Env) (streams : List LogStream) (s3 : List (String × List Nat))
    (c : CoreInputs) : RunState × Option RunError :=
  run env streams c.logPrefix c.minSize s3

/-- `lambda_handler`: builds the argument tuple and calls the core; any error
propagates to the caller. -/
def lambda_handler (env : Env) (streams : List LogStream) (s3 : List (String × List Nat))
    (ev : LambdaEvent) : RunState × Option RunError :=
  invokeCore env streams s3 (lambdaArgs ev)

/-- The `__main__` entry: parses the flags and calls the core; any error
propagates as a non-zero exit. -/
def cliMain (env : Env) (streams : List LogStream) (s3 : List (String × List Nat))
    (a : CliArgs) : RunState × Option RunError :=
  invokeCore env streams s3 (parse_args a)

/-! ### Basic lemmas -/

/-- The running maximum the code keeps in `last_written_this_run`, as a fold
over the successful-upload trace (initial value 0, as in the code). -/
def maxTs (us : List Upload) : Int :=
  us.foldl (fun a u => max a u.timestamp) 0

theorem objectKey_ne_configKey (p s : String) (t : Int) :
    objectKey p s t ≠ configKey p := by
  intro h
  have hd := congrArg String.data h
  simp only [objectKey, configKey, String.data_append] at hd
  rw [List.append_assoc, List.append_assoc, List.append_assoc, List.append_assoc] at hd
  have hcancel := List.append_cancel_left hd
  simp at hcancel

theorem s3get_cons_self (s3 : List (String × List Nat)) (k : String) (v : List Nat) :
    s3get ((k, v) :: s3) k = some v := by
  simp [s3get, List.find?]

theorem s3get_cons_ne (s3 : List (String × List Nat)) (k k' : String) (v : List Nat)
    (h : k ≠ k') : s3get ((k, v) :: s3) k' = s3get s3 k' := by
  simp only [s3get, List.find?]
  rw [show (k == k') = false by simpa using h]

theorem ite_lt_max (a b : Int) : (if a < b then b else a) = max a b := by
  rcases le_or_lt b a with h | h
  · rw [if_neg (not_lt.mpr h), max_eq_left h]
  · rw [if_pos h, max_eq_right h.le]

/-- Case analysis on one event step: skipped (state unchanged), failed upload
(state unchanged, error), or successful upload of an event with timestamp
strictly above the checkpoint. -/
theorem stepEvent_cases (env : Env) (p name : String) (ms lwt : Int) (st : RunState)
    (e : Event) :
    stepEvent env p name ms lwt st e = (st, none)
    ∨ stepEvent env p name ms lwt st e =
        (st, some (.uploadError (objectKey p name e.timestamp)))
    ∨ (lwt < e.timestamp ∧
       stepEvent env p name ms lwt st e =
         ({ s3 := (objectKey p name e.timestamp, gzipCompress e.message) :: st.s3,
            copiedFileCount := st.copiedFileCount + 1,
            lastWrittenThisRun := max st.lastWrittenThisRun e.timestamp,
            uploads := st.uploads ++
              [⟨name, e.timestamp, e.message,
                objectKey p name e.timestamp, gzipCompress e.message⟩] }, none)) := by
  unfold stepEvent
  split_ifs with h1 h2 h3 h4
  · exact Or.inl rfl
  · exact Or.inr (Or.inl rfl)
  · refine Or.inr (Or.inr ⟨not_le.mp h1, ?_⟩)
    rw [max_eq_right (le_of_lt h4)]
  · refine Or.inr (Or.inr ⟨not_le.mp h1, ?_⟩)
    rw [max_eq_left (not_lt.mp h4)]
  · exact Or.inl rfl

/-- A step that raises an error leaves the state untouched (the `put_object`
raised, so nothing was written and no counter moved). -/
theorem stepEvent_error (env : Env) (p name : String) (ms lwt : Int) (st st' : RunState)
    (e : Event) (err : RunError)
    (h : stepEvent env p name ms lwt st e = (st', some err)) :
    st' = st ∧ err = .uploadError (objectKey p name e.timestamp) := by
  rcases stepEvent_cases env p name ms lwt st e with hc | hc | ⟨-, hc⟩ <;>
    rw [hc, Prod.mk.injEq] at h
  · exact Option.noConfusion h.2
  · exact ⟨h.1.symm, (Option.some.inj h.2).symm⟩
  · exact Option.noConfusion h.2

/-- Preservation scheme: any state predicate preserved by single event steps
is preserved by the per-stream event loop. -/
theorem processEvents_inv (env : Env) (p name : String) (ms lwt : Int) (P : RunState → Prop)
    (hstep : ∀ st e st' o, stepEvent env p name ms lwt st e = (st', o) → P st → P st') :
    ∀ evs st, P st → P (processEvents env p name ms lwt st evs).1 := by
  intro evs
  induction evs with
  | nil => intro st h; exact h
  | cons e rest ih =>
    intro st h
    rcases hso : stepEvent env p name ms lwt st e with ⟨st', o⟩
    have hP' := hstep st e st' o hso h
    cases o with
    | none => simpa [processEvents, hso] using ih st' hP'
    | some err => simpa [processEvents, hso] using hP'

/-- Preservation scheme lifted to the stream loop. -/
theorem processStreams_inv (env : Env) (p : String) (ms lwt : Int) (P : RunState → Prop)
    (hstep : ∀ name st e st' o, stepEvent env p name ms lwt st e = (st', o) → P st → P st') :
    ∀ ss st, P st → P (processStreams env p ms lwt st ss).1 := by
  intro ss
  induction ss with
  | nil => intro st h; exact h
  | cons ls rest ih =>
    intro st h
    rcases hpe : processEvents env p ls.logStreamName ms lwt st
        (env.filterLogEvents ls.logStreamName (lwt + 1)) with ⟨st', o⟩
    have hP' : P st' := by
      have := processEvents_inv env p ls.logStreamName ms lwt P (hstep ls.logStreamName)
        (env.filterLogEvents ls.logStreamName (lwt + 1)) st h
      rwa [hpe] at this
    cases o with
    | none => simpa [processStreams, hpe] using ih st' hP'
    | some err => simpa [processStreams, hpe] using hP'

/-- The only errors the event loop raises are upload errors. -/
theorem processEvents_error_shape (env : Env) (p name : String) (ms lwt : Int) :
    ∀ evs st st' err, processEvents env p name ms lwt st evs = (st', some err) →
      ∃ k, err = .uploadError k := by
  intro evs
  induction evs with
  | nil => intro st st' err h; exact absurd (congrArg Prod.snd h) (by simp [processEvents])
  | cons e rest ih =>
    intro st st' err h
    rcases hso : stepEvent env p name ms lwt st e with ⟨st₁, o⟩
    cases o with
    | none =>
      simp only [processEvents, hso] at h
      exact ih st₁ st' err h
    | some e₁ =>
      simp only [processEvents, hso] at h
      rw [Prod.mk.injEq] at h
      obtain ⟨-, he⟩ := stepEvent_error env p name ms lwt st st₁ e e₁ hso
      exact ⟨objectKey p name e.timestamp, (Option.some.inj h.2) ▸ he⟩

/-- The only errors the stream loop raises are upload errors. -/
theorem processStreams_error_shape (env : Env) (p : String) (ms lwt : Int) :
    ∀ ss st st' err, processStreams env p ms lwt st ss = (st', some err) →
      ∃ k, err = .uploadError k := by
  intro ss
  induction ss with
  | nil => intro st st' err h; exact absurd (congrArg Prod.snd h) (by simp [processStreams])
  | cons ls rest ih =>
    intro st st' err h
    rcases hpe : processEvents env p ls.logStreamName ms lwt st
        (env.filterLogEvents ls.logStreamName (lwt + 1)) with ⟨st₁, o⟩
    cases o with
    | none =>
      simp only [processStreams, hpe] at h
      exact ih st₁ st' err h
    | some e₁ =>
      simp only [processStreams, hpe] at h
      rw [Prod.mk.injEq] at h
      obtain ⟨k, hk⟩ := processEvents_error_shape env p ls.logStreamName ms lwt _ st st₁ e₁ hpe
      exact ⟨k, (Option.some.inj h.2) ▸ hk⟩

theorem foldlMax_init_le (a : Int) (us : List Upload) :
    a ≤ us.foldl (fun b u => max b u.timestamp) a := by
  induction us generalizing a with
  | nil => exact le_refl a
  | cons u rest ih => exact le_trans (le_max_left a u.timestamp) (ih (max a u.timestamp))

theorem foldlMax_mem_le (us : List Upload) (u : Upload) :
    ∀ a : Int, u ∈ us → u.timestamp ≤ us.foldl (fun b u => max b u.timestamp) a := by
  induction us with
  | nil => intro a hu; cases hu
  | cons v rest ih =>
    intro a hu
    simp only [List.foldl_cons]
    rcases List.mem_cons.mp hu with h | h
    · subst h
      exact le_trans (le_max_right a u.timestamp) (foldlMax_init_le _ rest)
    · exact ih (max a v.timestamp) h

theorem foldlMax_eq_init_or_mem (a : Int) (us : List Upload) :
    us.foldl (fun b u => max b u.timestamp) a = a
    ∨ ∃ u ∈ us, us.foldl (fun b u => max b u.timestamp) a = u.timestamp := by
  induction us generalizing a with
  | nil => exact Or.inl rfl
  | cons v rest ih =>
    rcases ih (max a v.timestamp) with h | ⟨u, hu, h⟩
    · rcases le_or_lt v.timestamp a with hva | hva
      · left
        simpa [max_eq_left hva] using h
      · right
        exact ⟨v, List.mem_cons_self v rest, by simpa [max_eq_right hva.le] using h⟩
    · exact Or.inr ⟨u, List.mem_cons_of_mem v hu, h⟩

theorem maxTs_append_singleton (us : List Upload) (u : Upload) :
    maxTs (us ++ [u]) = max (maxTs us) u.timestamp := by
  simp [maxTs, List.foldl_append]

theorem maxTs_mem_le (us : List Upload) (u : Upload) (hu : u ∈ us) :
    u.timestamp ≤ maxTs us :=
  foldlMax_mem_le us u 0 hu

theorem maxTs_eq_zero_or_mem (us : List Upload) :
    maxTs us = 0 ∨ ∃ u ∈ us, maxTs us = u.timestamp :=
  foldlMax_eq_init_or_mem 0 us

/-! ### Run invariants -/

/-- Well-formedness of one successful upload with respect to the pre-run
checkpoint `lwt`: the event's timestamp is strictly newer, the key is the
deterministic object key, and the body is the compressed payload. -/
def UploadOK (p : String) (lwt : Int) (u : Upload) : Prop :=
  lwt < u.timestamp ∧ u.key = objectKey p u.streamName u.timestamp ∧
    u.body = gzipCompress u.payload

theorem stepEvent_preserves_uploadOK (env : Env) (p : String) (name : String)
    (ms lwt : Int) :
    ∀ st e st' o, stepEvent env p name ms lwt st e = (st', o) →
      (∀ u ∈ st.uploads, UploadOK p lwt u) → ∀ u ∈ st'.uploads, UploadOK p lwt u := by
  intro st e st' o hso hP
  rcases stepEvent_cases env p name ms lwt st e with hc | hc | ⟨hlt, hc⟩ <;>
    rw [hso, Prod.mk.injEq] at hc
  · exact hc.1 ▸ hP
  · exact hc.1 ▸ hP
  · rcases hc with ⟨rfl, -⟩
    intro u hu
    rcases List.mem_append.mp hu with h | h
    · exact hP u h
    · rw [List.mem_singleton.mp h]
      exact ⟨hlt, rfl, rfl⟩

theorem stepEvent_preserves_count (env : Env) (p : String) (name : String)
    (ms lwt : Int) :
    ∀ st e st' o, stepEvent env p name ms lwt st e = (st', o) →
      st.copiedFileCount = st.uploads.length →
      st'.copiedFileCount = st'.uploads.length := by
  intro st e st' o hso hP
  rcases stepEvent_cases env p name ms lwt st e with hc | hc | ⟨-, hc⟩ <;>
    rw [hso, Prod.mk.injEq] at hc
  · exact hc.1 ▸ hP
  · exact hc.1 ▸ hP
  · rcases hc with ⟨rfl, -⟩
    simp [hP]

theorem stepEvent_preserves_hwm (env : Env) (p : String) (name : String)
    (ms lwt : Int) :
    ∀ st e st' o, stepEvent env p name ms lwt st e = (st', o) →
      st.lastWrittenThisRun = maxTs st.uploads →
      st'.lastWrittenThisRun = maxTs st'.uploads := by
  intro st e st' o hso hP
  rcases stepEvent_cases env p name ms lwt st e with hc | hc | ⟨-, hc⟩ <;>
    rw [hso, Prod.mk.injEq] at hc
  · exact hc.1 ▸ hP
  · exact hc.1 ▸ hP
  · rcases hc with ⟨rfl, -⟩
    simp only [maxTs_append_singleton, hP]

theorem stepEvent_preserves_configGet (env : Env) (p : String) (name : String)
    (ms lwt : Int) (c : Option (List Nat)) :
    ∀ st e st' o, stepEvent env p name ms lwt st e = (st', o) →
      s3get st.s3 (configKey p) = c → s3get st'.s3 (configKey p) = c := by
  intro st e st' o hso hP
  rcases stepEvent_cases env p name ms lwt st e with hc | hc | ⟨-, hc⟩ <;>
    rw [hso, Prod.mk.injEq] at hc
  · exact hc.1 ▸ hP
  · exact hc.1 ▸ hP
  · rcases hc with ⟨rfl, -⟩
    show s3get ((objectKey p name e.timestamp, gzipCompress e.message) :: st.s3)
      (configKey p) = c
    rw [s3get_cons_ne _ _ _ _ (objectKey_ne_configKey p name e.timestamp)]
    exact hP

theorem processStreams_preserves_configGet (env : Env) (p : String) (ms lwt : Int)
    (ss : List LogStream) (st : RunState) :
    s3get (processStreams env p ms lwt st ss).1.s3 (configKey p) =
      s3get st.s3 (configKey p) :=
  processStreams_inv env p ms lwt
    (fun st' => s3get st'.s3 (configKey p) = s3get st.s3 (configKey p))
    (fun name => stepEvent_preserves_configGet env p name ms lwt _) ss st rfl

theorem processStreams_uploadOK (env : Env) (p : String) (ms lwt : Int)
    (ss : List LogStream) (st : RunState)
    (h : ∀ u ∈ st.uploads, UploadOK p lwt u) :
    ∀ u ∈ (processStreams env p ms lwt st ss).1.uploads, UploadOK p lwt u :=
  processStreams_inv env p ms lwt (fun st' => ∀ u ∈ st'.uploads, UploadOK p lwt u)
    (fun name => stepEvent_preserves_uploadOK env p name ms lwt) ss st h

theorem processStreams_count (env : Env) (p : String) (ms lwt : Int)
    (ss : List LogStream) (st : RunState)
    (h : st.copiedFileCount = st.uploads.length) :
    (processStreams env p ms lwt st ss).1.copiedFileCount =
      (processStreams env p ms lwt st ss).1.uploads.length :=
  processStreams_inv env p ms lwt (fun st' => st'.copiedFileCount = st'.uploads.length)
    (fun name => stepEvent_preserves_count env p name ms lwt) ss st h

theorem processStreams_hwm (env : Env) (p : String) (ms lwt : Int)
    (ss : List LogStream) (st : RunState)
    (h : st.lastWrittenThisRun = maxTs st.uploads) :
    (processStreams env p ms lwt st ss).1.lastWrittenThisRun =
      maxTs (processStreams env p ms lwt st ss).1.uploads :=
  processStreams_inv env p ms lwt (fun st' => st'.lastWrittenThisRun = maxTs st'.uploads)
    (fun name => stepEvent_preserves_hwm env p name ms lwt) ss st h

/-- After the checkpoint read succeeds, the run's final counters and trace
are those of the stream loop: the trailing checkpoint commit touches only the
S3 state. -/
theorem run_counters (env : Env) (streams : List LogStream) (p : String) (ms : Int)
    (s3 : List (String × List Nat)) (lwt ems : Int)
    (hb : env.headBucketStatus = none)
    (hread : readCheckpoint env s3 p ms = .ok (lwt, ems)) :
    (run env streams p ms s3).1.uploads =
        (processStreams env p ems lwt ⟨s3, 0, 0, []⟩ (logsToProcess streams lwt)).1.uploads
    ∧ (run env streams p ms s3).1.copiedFileCount =
        (processStreams env p ems lwt ⟨s3, 0, 0, []⟩ (logsToProcess streams lwt)).1.copiedFileCount
    ∧ (run env streams p ms s3).1.lastWrittenThisRun =
        (processStreams env p ems lwt ⟨s3, 0, 0, []⟩ (logsToProcess streams lwt)).1.lastWrittenThisRun := by
  simp only [run, hb, hread]
  rcases hps : processStreams env p ems lwt ⟨s3, 0, 0, []⟩ (logsToProcess streams lwt)
    with ⟨st, o⟩
  cases o with
  | some err => simp
  | none =>
    by_cases h1 : 0 < st.lastWrittenThisRun <;>
      by_cases h2 : env.putFails (configKey p) <;> simp [h1, h2]

/-- Per-run upload well-formedness, from the empty initial trace. -/
theorem run_uploads_ok (env : Env) (streams : List LogStream) (p : String) (ms : Int)
    (s3 : List (String × List Nat)) (lwt ems : Int)
    (hread : readCheckpoint env s3 p ms = .ok (lwt, ems)) :
    ∀ u ∈ (run env streams p ms s3).1.uploads, UploadOK p lwt u := by
  cases hb : env.headBucketStatus with
  | some code => simp [run, hb]
  | none =>
    rw [(run_counters env streams p ms s3 lwt ems hb hread).1]
    exact processStreams_uploadOK env p ems lwt _ _ (by simp)

/-- Shape of the successful run's final S3 state: if the stream loop ends with
a positive high-water mark, the checkpoint object was consed on; otherwise
the S3 state is exactly the stream loop's. -/
theorem run_commit (env : Env) (streams : List LogStream) (p : String) (ms : Int)
    (s3 : List (String × List Nat)) (lwt ems : Int)
    (hb : env.headBucketStatus = none)
    (hread : readCheckpoint env s3 p ms = .ok (lwt, ems))
    (hok : (run env streams p ms s3).2 = none) :
    (processStreams env p ems lwt ⟨s3, 0, 0, []⟩ (logsToProcess streams lwt)).2 = none
    ∧ ((0 < (processStreams env p ems lwt ⟨s3, 0, 0, []⟩
              (logsToProcess streams lwt)).1.lastWrittenThisRun
        ∧ (run env streams p ms s3).1.s3 =
            (configKey p,
             encodeDecimal (processStreams env p ems lwt ⟨s3, 0, 0, []⟩
               (logsToProcess streams lwt)).1.lastWrittenThisRun) ::
            (processStreams env p ems lwt ⟨s3, 0, 0, []⟩ (logsToProcess streams lwt)).1.s3)
       ∨ ((processStreams env p ems lwt ⟨s3, 0, 0, []⟩
              (logsToProcess streams lwt)).1.lastWrittenThisRun ≤ 0
          ∧ (run env streams p ms s3).1.s3 =
              (processStreams env p ems lwt ⟨s3, 0, 0, []⟩ (logsToProcess streams lwt)).1.s3)) := by
  revert hok
  simp only [run, hb, hread]
  rcases hps : processStreams env p ems lwt ⟨s3, 0, 0, []⟩ (logsToProcess streams lwt)
    with ⟨st, o⟩
  cases o with
  | some err => intro hok; exact absurd hok (by simp)
  | none =>
    by_cases h1 : 0 < st.lastWrittenThisRun
    · by_cases h2 : env.putFails (configKey p)
      · intro hok; exact absurd hok (by simp [h1, h2])
      · intro _; exact ⟨rfl, Or.inl ⟨h1, by simp [h1, h2]⟩⟩
    · intro _; exact ⟨rfl, Or.inr ⟨not_lt.mp h1, by simp [h1]⟩⟩

/-- When the run raises an upload error, the checkpoint commit never runs, so
the stored checkpoint object is untouched. -/
theorem run_s3_of_uploadError (env : Env) (streams : List LogStream) (p : String)
    (ms : Int) (s3 : List (String × List Nat)) (k : String)
    (h : (run env streams p ms s3).2 = some (.uploadError k)) :
    s3get (run env streams p ms s3).1.s3 (configKey p) = s3get s3 (configKey p) := by
  cases hb : env.headBucketStatus with
  | some code => simp [run, hb]
  | none =>
    cases hread : readCheckpoint env s3 p ms with
    | error e => simp [run, hb, hread]
    | ok pr =>
      obtain ⟨lwt, ems⟩ := pr
      revert h
      simp only [run, hb, hread]
      rcases hps : processStreams env p ems lwt ⟨s3, 0, 0, []⟩ (logsToProcess streams lwt)
        with ⟨st, o⟩
      cases o with
      | some err =>
        intro _
        have := processStreams_preserves_configGet env p ems lwt (logsToProcess streams lwt)
          ⟨s3, 0, 0, []⟩
        rw [hps] at this
        simpa using this
      | none =>
        by_cases h1 : 0 < st.lastWrittenThisRun
        · by_cases h2 : env.putFails (configKey p)
          · intro hk; exact absurd hk (by simp [h1, h2])
          · intro hk; exact absurd hk (by simp [h1, h2])
        · intro hk; exact absurd hk (by simp [h1])

/-! ### Witness fixtures -/

/-- A healthy environment: no injected failures; one stream page with events
at 999, 1001 (5 bytes) and 1002 (20 bytes). -/
def demoEnv : Env :=
  ⟨none, none,
   fun _ _ => [⟨999, [65]⟩, ⟨1001, List.replicate 5 65⟩, ⟨1002, List.replicate 20 66⟩],
   fun _ => false⟩

/-- Initial S3 state: stored checkpoint "1000" under prefix "p". -/
def demoS3 : List (String × List Nat) := [(configKey "p", [49, 48, 48, 48])]

/-- One stream with recent activity. -/
def demoStreams : List LogStream := [⟨"s", some 1002⟩]

/-- Environment where every `put_object` raises. -/
def failEnv : Env := ⟨none, none, fun _ _ => [⟨1002, List.replicate 20 66⟩], fun _ => true⟩

/-- Stored checkpoint whose body "hi" is not a decimal integer. -/
def badBodyS3 : List (String × List Nat) := [(configKey "p", [104, 105])]

/-- Environment with no events at all. -/
def noStreamEnv : Env := ⟨none, none, fun _ _ => [], fun _ => false⟩

/-- Environment where the checkpoint `get_object` raises with HTTP 500. -/
def errEnv : Env := ⟨none, some 500, fun _ _ => [], fun _ => false⟩

/-! ### Claims -/

/-- **C1**: no event with timestamp ≤ the pre-run checkpoint is ever written
as a destination object.  First conjunct: whatever events the per-stream
query returns (even ones violating the `startTime = checkpoint + 1` request
bound), the explicit skip guard keeps every upload's timestamp strictly above
the checkpoint.  Second conjunct: over the whole run, every uploaded event
has timestamp strictly greater than the parsed pre-run checkpoint. -/
theorem C1_no_event_le_checkpoint_written (env : Env) (p name : String) (ems lwt ms : Int)
    (streams : List LogStream) (s3 : List (String × List Nat)) (st : RunState)
    (evs : List Event) :
    ((∀ u ∈ st.uploads, lwt < u.timestamp) →
        ∀ u ∈ (processEvents env p name ems lwt st evs).1.uploads, lwt < u.timestamp)
    ∧ (∀ lwt' ems', readCheckpoint env s3 p ms = .ok (lwt', ems') →
        ∀ u ∈ (run env streams p ms s3).1.uploads, lwt' < u.timestamp) := by
  constructor
  · intro h
    refine processEvents_inv env p name ems lwt
      (fun st' => ∀ u ∈ st'.uploads, lwt < u.timestamp) ?_ evs st h
    intro st₁ e st' o hso hP
    rcases stepEvent_cases env p name ems lwt st₁ e with hc | hc | ⟨hlt, hc⟩ <;>
      rw [hso, Prod.mk.injEq] at hc
    · exact hc.1 ▸ hP
    · exact hc.1 ▸ hP
    · rcases hc with ⟨rfl, -⟩
      intro u hu
      rcases List.mem_append.mp hu with h' | h'
      · exact hP u h'
      · rw [List.mem_singleton.mp h']
        exact hlt
  · intro lwt' ems' hread u hu
    exact (run_uploads_ok env streams p ms s3 lwt' ems' hread u hu).1

theorem C1_witness :
    (1000 : Int) <
      (Upload.mk "s" 1002 (List.replicate 20 66) (objectKey "p" "s" 1002)
        (gzipCompress (List.replicate 20 66))).timestamp := by
  exact (C1_no_event_le_checkpoint_written demoEnv "p" "s" 10 1000 10 demoStreams demoS3
      ⟨demoS3, 0, 0, []⟩ []).2 1000 10 rfl
    ⟨"s", 1002, List.replicate 20 66, objectKey "p" "s" 1002,
      gzipCompress (List.replicate 20 66)⟩ (by decide)

/-- **C7**: every copied event is stored under
`{prefix}/logs/{streamName}/{eventTimestamp}.gz` with body equal to the
compression of its UTF-8 payload, and decompressing the stored body yields
exactly the original payload. -/
theorem C7_destination_key_and_roundtrip (env : Env) (streams : List LogStream)
    (p : String) (ms : Int) (s3 : List (String × List Nat)) (lwt ems : Int)
    (hread : readCheckpoint env s3 p ms = .ok (lwt, ems)) :
    ∀ u ∈ (run env streams p ms s3).1.uploads,
      u.key = objectKey p u.streamName u.timestamp
      ∧ u.body = gzipCompress u.payload
      ∧ gzipDecompress u.body = some u.payload := by
  intro u hu
  obtain ⟨-, hk, hbody⟩ := run_uploads_ok env streams p ms s3 lwt ems hread u hu
  exact ⟨hk, hbody, by rw [hbody, gzipDecompress_gzipCompress]⟩

theorem C7_witness :
    gzipDecompress (gzipCompress (List.replicate 20 66)) = some (List.replicate 20 66) := by
  have h := C7_destination_key_and_roundtrip demoEnv demoStreams "p" 10 demoS3 1000 10 rfl
    ⟨"s", 1002, List.replicate 20 66, objectKey "p" "s" 1002,
      gzipCompress (List.replicate 20 66)⟩ (by decide)
  exact h.2.2

/-- **C5**: the in-run high-water mark `last_written_this_run` equals, at
every point of the traversal, the maximum timestamp (fold of `max` from 0)
over the events whose S3 write already succeeded: each step preserves the
equality, and a step whose write fails leaves the state (and hence the mark)
unchanged. -/
theorem C5_hwm_tracks_successful_writes (env : Env) (p name : String) (ms lwt : Int)
    (st st' : RunState) (e : Event) (o : Option RunError)
    (hstep : stepEvent env p name ms lwt st e = (st', o))
    (hinv : st.lastWrittenThisRun = maxTs st.uploads) :
    st'.lastWrittenThisRun = maxTs st'.uploads ∧ (o.isSome → st' = st) := by
  refine ⟨stepEvent_preserves_hwm env p name ms lwt st e st' o hstep hinv, ?_⟩
  intro ho
  obtain ⟨err, herr⟩ := Option.isSome_iff_exists.mp ho
  subst herr
  exact (stepEvent_error env p name ms lwt st st' e err hstep).1

theorem C5_witness :
    (stepEvent demoEnv "p" "s" 10 1000 ⟨demoS3, 0, 0, []⟩
        ⟨1002, List.replicate 20 66⟩).1.lastWrittenThisRun
      = maxTs (stepEvent demoEnv "p" "s" 10 1000 ⟨demoS3, 0, 0, []⟩
          ⟨1002, List.replicate 20 66⟩).1.uploads := by
  exact (C5_hwm_tracks_successful_writes demoEnv "p" "s" 10 1000 ⟨demoS3, 0, 0, []⟩ _
    ⟨1002, List.replicate 20 66⟩ _ rfl rfl).1

/-- A stream descriptor with no reported last-event timestamp. -/
def absentTsStream : LogStream := ⟨"s1", none⟩

/-- **C3** counterexample: with checkpoint 0, a stream whose
`lastEventTimestamp` is absent IS skipped at the stream level (the code
defaults the missing field to 0, and `0 > 0` fails), refuting the claim that
only streams with a known timestamp ≤ checkpoint are skipped. -/
theorem C3_counterexample :
    absentTsStream ∉ logsToProcess [absentTsStream] 0
    ∧ absentTsStream.lastEventTimestamp = none := by
  decide

/-- **C3** amended: an enumerated stream survives the stream-level prefilter
iff its reported last-event timestamp, taken as 0 when absent, is strictly
greater than the checkpoint; in particular a stream with an absent timestamp
is skipped whenever the checkpoint is ≥ 0. -/
theorem C3_amended_stream_prefilter (streams : List LogStream) (lwt : Int)
    (ls : LogStream) (h : ls ∈ streams) :
    ls ∈ logsToProcess streams lwt ↔ lwt < ls.lastEventTimestamp.getD 0 := by
  simp [logsToProcess, List.mem_filter, h]

theorem C3_witness :
    (⟨"s", some 5⟩ : LogStream) ∈ logsToProcess [⟨"s", some 5⟩] 0 := by
  exact (C3_amended_stream_prefilter [⟨"s", some 5⟩] 0 ⟨"s", some 5⟩
    (List.mem_singleton.mpr rfl)).mpr (by decide)

/-- **C4**: when the checkpoint object is absent (first run), the checkpoint
read returns `(0, 0)` — the effective minimum-size filter is forced to 0 —
so the whole run is identical to a run configured with min-size 0, and every
event surviving the timestamp filter whose write succeeds is copied
regardless of its payload size. -/
theorem C4_first_run_ignores_min_size (env : Env) (streams : List LogStream)
    (p name : String) (minSize : Int) (s3 : List (String × List Nat)) (st : RunState)
    (hov : env.configGetError = none)
    (habs : s3get s3 (configKey p) = none) :
    readCheckpoint env s3 p minSize = .ok (0, 0)
    ∧ run env streams p minSize s3 = run env streams p 0 s3
    ∧ (∀ e : Event, 0 < e.timestamp →
        env.putFails (objectKey p name e.timestamp) = false →
        (stepEvent env p name 0 0 st e).1.copiedFileCount = st.copiedFileCount + 1) := by
  have hget : getConfigResult env s3 p = .error 404 := by
    simp [getConfigResult, hov, habs]
  have hr : readCheckpoint env s3 p minSize = .ok (0, 0) := by
    simp [readCheckpoint, hget]
  have hr0 : readCheckpoint env s3 p 0 = .ok (0, 0) := by
    simp [readCheckpoint, hget]
  refine ⟨hr, ?_, ?_⟩
  · cases hb : env.headBucketStatus with
    | some code => simp [run, hb]
    | none => simp [run, hb, hr, hr0]
  · intro e hts hput
    unfold stepEvent
    rw [if_neg (not_le.mpr hts), if_pos (Int.natCast_nonneg e.message.length),
      if_neg (by simp [hput])]

theorem C4_witness :
    readCheckpoint demoEnv [] "p" 50 = .ok (0, 0)
    ∧ run demoEnv demoStreams "p" 50 [] = run demoEnv demoStreams "p" 0 [] := by
  have h := C4_first_run_ignores_min_size demoEnv demoStreams "p" "s" 50 []
    ⟨[], 0, 0, []⟩ rfl rfl
  exact ⟨h.1, h.2.1⟩

/-- **C8**: when the checkpoint `get_object` raises a `ClientError`, the run
terminates immediately with the checkpoint-read error (state untouched, no
stream processed) exactly when the HTTP status is not 404; a 404 is the
expected first-run condition and the read yields checkpoint 0. -/
theorem C8_checkpoint_read_error (env : Env) (streams : List LogStream) (p : String)
    (ms : Int) (s3 : List (String × List Nat)) (code : Int)
    (hb : env.headBucketStatus = none)
    (hget : getConfigResult env s3 p = .error code) :
    (code ≠ 404 ↔ run env streams p ms s3 = (⟨s3, 0, 0, []⟩, some .configReadError))
    ∧ (code = 404 → readCheckpoint env s3 p ms = .ok (0, 0)) := by
  constructor
  · constructor
    · intro hne
      have hr : readCheckpoint env s3 p ms = .error .configReadError := by
        simp [readCheckpoint, hget, hne]
      simp [run, hb, hr]
    · intro hrun h404
      subst h404
      have hr : readCheckpoint env s3 p ms = .ok (0, 0) := by
        simp [readCheckpoint, hget]
      revert hrun
      simp only [run, hb, hr]
      rcases hps : processStreams env p 0 0 ⟨s3, 0, 0, []⟩ (logsToProcess streams 0)
        with ⟨st, o⟩
      cases o with
      | some err =>
        intro hrun
        obtain ⟨k, hk⟩ := processStreams_error_shape env p 0 0 _ _ _ _ hps
        rw [Prod.mk.injEq, hk] at hrun
        exact RunError.noConfusion (Option.some.inj hrun.2)
      | none =>
        by_cases h1 : 0 < st.lastWrittenThisRun
        · by_cases h2 : env.putFails (configKey p)
          · intro hrun
            simp [h1, h2] at hrun
          · intro hrun
            simp [h1, h2] at hrun
        · intro hrun
          simp [h1] at hrun
  · intro h404
    subst h404
    simp [readCheckpoint, hget]

theorem C8_witness :
    run errEnv demoStreams "p" 10 demoS3 = (⟨demoS3, 0, 0, []⟩, some .configReadError) := by
  exact ((C8_checkpoint_read_error errEnv demoStreams "p" 10 demoS3 500 rfl rfl).1).mp
    (by decide)

/-- **C10**: a present checkpoint object whose body is not a valid ASCII
decimal integer makes the run terminate with the uncaught `ValueError` from
`int()` (only `ClientError` is caught), before any stream is enumerated and
with no destination object written. -/
theorem C10_unparseable_checkpoint_raises (env : Env) (streams : List LogStream)
    (p : String) (ms : Int) (s3 : List (String × List Nat)) (body : List Nat)
    (hb : env.headBucketStatus = none)
    (hov : env.configGetError = none)
    (hbody : s3get s3 (configKey p) = some body)
    (hparse : pyIntParse body = none) :
    run env streams p ms s3 = (⟨s3, 0, 0, []⟩, some .valueError) := by
  have hget : getConfigResult env s3 p = .ok body := by
    simp [getConfigResult, hov, hbody]
  have hr : readCheckpoint env s3 p ms = .error .valueError := by
    simp [readCheckpoint, hget, hparse]
  simp [run, hb, hr]

theorem C10_witness :
    run noStreamEnv demoStreams "p" 10 badBodyS3 = (⟨badBodyS3, 0, 0, []⟩, some .valueError) :=
  C10_unparseable_checkpoint_raises noStreamEnv demoStreams "p" 10 badBodyS3 [104, 105]
    rfl rfl rfl rfl

/-- **C9**: the lambda surface and the CLI surface build the same five-input
tuple with identical defaults (prefix `""`, min-size `0`) and invoke the same
core procedure, so equal raw inputs give identical behavior, and both
surfaces return the core's outcome unchanged — a fatal error propagates
rather than being swallowed. -/
theorem C9_invocation_surfaces_agree (env : Env) (streams : List LogStream)
    (s3 : List (String × List Nat)) (ev : LambdaEvent) (a : CliArgs)
    (hg : ev.logGroupName = a.logGroupName)
    (hbk : ev.s3BucketName = a.s3BucketName)
    (hr : ev.awsRegion = a.awsRegion)
    (hp : ev.logPrefix = a.logPrefix)
    (hm : ev.minSize = a.minSize) :
    lambdaArgs ev = parse_args a
    ∧ lambdaArgs ⟨ev.logGroupName, ev.s3BucketName, ev.awsRegion, none, none⟩ =
        ⟨ev.logGroupName, ev.s3BucketName, ev.awsRegion, "", 0⟩
    ∧ parse_args ⟨a.logGroupName, a.s3BucketName, a.awsRegion, none, none⟩ =
        ⟨a.logGroupName, a.s3BucketName, a.awsRegion, "", 0⟩
    ∧ lambda_handler env streams s3 ev = cliMain env streams s3 a
    ∧ (lambda_handler env streams s3 ev).2 =
        (run env streams (ev.logPrefix.getD "") (ev.minSize.getD 0) s3).2 := by
  refine ⟨?_, rfl, rfl, ?_, rfl⟩
  · simp [lambdaArgs, parse_args, hg, hbk, hr, hp, hm]
  · simp [lambda_handler, cliMain, invokeCore, lambdaArgs, parse_args, hg, hbk, hr, hp, hm]

theorem C9_witness :
    lambda_handler demoEnv demoStreams demoS3 ⟨"g", "b", "r", none, none⟩ =
      cliMain demoEnv demoStreams demoS3 ⟨"g", "b", "r", none, none⟩ := by
  exact (C9_invocation_surfaces_agree demoEnv demoStreams demoS3 ⟨"g", "b", "r", none, none⟩
    ⟨"g", "b", "r", none, none⟩ rfl rfl rfl rfl rfl).2.2.2.1

/-- **C2**: for a successful run with a non-negative pre-run checkpoint (the
checkpoint is a non-negative epoch-ms value per the data model): if at least
one object was copied, the stored checkpoint afterwards is the decimal
encoding of `last_written_this_run`, which is the maximum timestamp among the
copied events and strictly greater than the pre-run checkpoint; if zero
objects were copied, no checkpoint write happens and the stored checkpoint is
unchanged. -/
theorem C2_checkpoint_commit_max (env : Env) (streams : List LogStream) (p : String)
    (ms : Int) (s3 : List (String × List Nat)) (lwt ems : Int)
    (hread : readCheckpoint env s3 p ms = .ok (lwt, ems))
    (hlwt : 0 ≤ lwt)
    (hok : (run env streams p ms s3).2 = none) :
    (1 ≤ (run env streams p ms s3).1.copiedFileCount →
        s3get (run env streams p ms s3).1.s3 (configKey p) =
          some (encodeDecimal (run env streams p ms s3).1.lastWrittenThisRun)
        ∧ (∃ u ∈ (run env streams p ms s3).1.uploads,
             u.timestamp = (run env streams p ms s3).1.lastWrittenThisRun)
        ∧ (∀ u ∈ (run env streams p ms s3).1.uploads,
             u.timestamp ≤ (run env streams p ms s3).1.lastWrittenThisRun)
        ∧ lwt < (run env streams p ms s3).1.lastWrittenThisRun)
    ∧ ((run env streams p ms s3).1.copiedFileCount = 0 →
        (run env streams p ms s3).1.s3 =
          (processStreams env p ems lwt ⟨s3, 0, 0, []⟩ (logsToProcess streams lwt)).1.s3
        ∧ s3get (run env streams p ms s3).1.s3 (configKey p) = s3get s3 (configKey p)) := by
  cases hb : env.headBucketStatus with
  | some code => simp [run, hb] at hok
  | none =>
    have hc := run_counters env streams p ms s3 lwt ems hb hread
    have hcm := run_commit env streams p ms s3 lwt ems hb hread hok
    have hhwm : (processStreams env p ems lwt ⟨s3, 0, 0, []⟩
        (logsToProcess streams lwt)).1.lastWrittenThisRun =
        maxTs (processStreams env p ems lwt ⟨s3, 0, 0, []⟩
          (logsToProcess streams lwt)).1.uploads :=
      processStreams_hwm env p ems lwt (logsToProcess streams lwt) ⟨s3, 0, 0, []⟩ rfl
    have hcnt : (processStreams env p ems lwt ⟨s3, 0, 0, []⟩
        (logsToProcess streams lwt)).1.copiedFileCount =
        (processStreams env p ems lwt ⟨s3, 0, 0, []⟩
          (logsToProcess streams lwt)).1.uploads.length :=
      processStreams_count env p ems lwt (logsToProcess streams lwt) ⟨s3, 0, 0, []⟩ rfl
    have hup : ∀ u ∈ (processStreams env p ems lwt ⟨s3, 0, 0, []⟩
        (logsToProcess streams lwt)).1.uploads, UploadOK p lwt u :=
      processStreams_uploadOK env p ems lwt (logsToProcess streams lwt) ⟨s3, 0, 0, []⟩
        (by simp)
    constructor
    · intro h1
      rw [hc.2.1, hcnt] at h1
      have hne : (processStreams env p ems lwt ⟨s3, 0, 0, []⟩
          (logsToProcess streams lwt)).1.uploads ≠ [] := by
        intro hnil
        rw [hnil] at h1
        simp at h1
      obtain ⟨u₀, hu₀⟩ := List.exists_mem_of_ne_nil _ hne
      have hmax : ∃ u ∈ (processStreams env p ems lwt ⟨s3, 0, 0, []⟩
          (logsToProcess streams lwt)).1.uploads,
          maxTs (processStreams env p ems lwt ⟨s3, 0, 0, []⟩
            (logsToProcess streams lwt)).1.uploads = u.timestamp := by
        rcases maxTs_eq_zero_or_mem (processStreams env p ems lwt ⟨s3, 0, 0, []⟩
            (logsToProcess streams lwt)).1.uploads with hz | hmem
        · exfalso
          have h0 := maxTs_mem_le _ u₀ hu₀
          have hgt := (hup u₀ hu₀).1
          rw [hz] at h0
          omega
        · exact hmem
      obtain ⟨um, hum, hmaxm⟩ := hmax
      have hpos : 0 < (processStreams env p ems lwt ⟨s3, 0, 0, []⟩
          (logsToProcess streams lwt)).1.lastWrittenThisRun := by
        rw [hhwm, hmaxm]
        exact lt_of_le_of_lt hlwt (hup um hum).1
      rcases hcm.2 with ⟨-, hs3⟩ | ⟨hle, -⟩
      · refine ⟨?_, ⟨um, ?_, ?_⟩, ?_, ?_⟩
        · rw [hs3, hc.2.2]
          exact s3get_cons_self _ _ _
        · rw [hc.1]
          exact hum
        · rw [hc.2.2, hhwm, hmaxm]
        · intro u hu
          rw [hc.1] at hu
          rw [hc.2.2, hhwm]
          exact maxTs_mem_le _ u hu
        · rw [hc.2.2, hhwm, hmaxm]
          exact (hup um hum).1
      · exact absurd hpos (not_lt.mpr hle)
    · intro h0
      rw [hc.2.1, hcnt] at h0
      have hnil := List.length_eq_zero.mp h0
      have hz : (processStreams env p ems lwt ⟨s3, 0, 0, []⟩
          (logsToProcess streams lwt)).1.lastWrittenThisRun = 0 := by
        rw [hhwm, hnil]
        rfl
      rcases hcm.2 with ⟨hpos, -⟩ | ⟨-, hs3⟩
      · rw [hz] at hpos
        exact absurd hpos (lt_irrefl 0)
      · refine ⟨hs3, ?_⟩
        rw [hs3]
        have hpre := processStreams_preserves_configGet env p ems lwt
          (logsToProcess streams lwt) ⟨s3, 0, 0, []⟩
        simpa using hpre

theorem C2_witness :
    s3get (run demoEnv demoStreams "p" 10 demoS3).1.s3 (configKey "p") =
      some (encodeDecimal (run demoEnv demoStreams "p" 10 demoS3).1.lastWrittenThisRun)
    ∧ (1000 : Int) < (run demoEnv demoStreams "p" 10 demoS3).1.lastWrittenThisRun := by
  have h := C2_checkpoint_commit_max demoEnv demoStreams "p" 10 demoS3 1000 10 rfl
    (by decide) rfl
  have h1 := h.1 (by decide)
  exact ⟨h1.1, h1.2.2.2⟩

/-- **C6**: a failed destination write aborts the run immediately: the event
loop stops at the failing event (ignoring the rest of the stream), the stream
loop stops at the failing stream (ignoring the remaining streams), and a run
that ends with an upload error never writes the checkpoint object — the
stored checkpoint stays at its pre-run value. -/
theorem C6_write_failure_aborts (env : Env) (p name : String) (ms lwt : Int)
    (st : RunState) (e : Event) (evs : List Event) (ls : LogStream)
    (rest streams : List LogStream) (msz : Int) (s3 : List (String × List Nat))
    (err : RunError) (k : String) :
    ((stepEvent env p name ms lwt st e).2 = some err →
        processEvents env p name ms lwt st (e :: evs) = stepEvent env p name ms lwt st e)
    ∧ ((processEvents env p ls.logStreamName ms lwt st
            (env.filterLogEvents ls.logStreamName (lwt + 1))).2 = some err →
        processStreams env p ms lwt st (ls :: rest) =
          processEvents env p ls.logStreamName ms lwt st
            (env.filterLogEvents ls.logStreamName (lwt + 1)))
    ∧ ((run env streams p msz s3).2 = some (.uploadError k) →
        s3get (run env streams p msz s3).1.s3 (configKey p) = s3get s3 (configKey p)) := by
  refine ⟨?_, ?_, fun h => run_s3_of_uploadError env streams p msz s3 k h⟩
  · intro h
    rcases hso : stepEvent env p name ms lwt st e with ⟨st', o⟩
    rw [hso] at h
    cases o with
    | none => simp at h
    | some e' => simp [processEvents, hso]
  · intro h
    rcases hpe : processEvents env p ls.logStreamName ms lwt st
        (env.filterLogEvents ls.logStreamName (lwt + 1)) with ⟨st', o⟩
    rw [hpe] at h
    cases o with
    | none => simp at h
    | some e' => simp [processStreams, hpe]

theorem C6_witness :
    s3get (run failEnv demoStreams "p" 10 demoS3).1.s3 (configKey "p") =
      s3get demoS3 (configKey "p") := by
  exact (C6_write_failure_aborts failEnv "p" "s" 10 1000 ⟨demoS3, 0, 0, []⟩ ⟨1002, []⟩ []
    ⟨"s", some 1002⟩ [] demoStreams 10 demoS3 (.uploadError "x")
    "p/logs/s/1002.gz").2.2 rfl

end TransferLogs
